import Mathlib

/-!
Verification of the complaint-ticketing core of the ibarangay backend.

The definitions below are a shallow embedding of the TypeScript source:

* `src/types/index.ts` — the `IComplaint`, `IUser`, `INotification`,
  `IComplaintComment` and `IComplaintHistory` shapes;
* `src/controllers/complaintController.ts` — `updateComplaintStatus`,
  `assignComplaint`, `addComment`, `rateComplaint`, `escalateComplaint`,
  `deleteComplaint`;
* `src/controllers/bulkOperationsController.ts` — `bulkUpdateStatus`,
  `bulkAssign`, `bulkDelete`;
* `src/controllers/notificationController.ts` — `getNotifications`,
  `markAsRead`, `markAllAsRead`, `deleteNotification`;
* `src/config/socket.ts` — `emitToUser`, `emitToStaff`, `emitToComplaint`
  (each is a no-op when the io handle is not initialized).

Mongo document ids are modelled as `Nat`; `Date` values as `Nat` timestamps.
A controller is modelled as a pure function from its inputs (request body
fields, the authenticated actor, the loaded documents, a fresh id for any
document the operation creates, the availability of the socket.io handle,
and the current time) to a result together with the ordered list of side
effects it performs (notification inserts and socket emissions), mirroring
the sequential `await` order of the source.
-/

namespace IBarangay

/-- User roles, from the `IUser.role` union type. -/
inductive Role
  | admin
  | staff
  | resident
deriving DecidableEq, Repr

/-- Complaint statuses, from the `complaintSchema` status enum. -/
inductive CStatus
  | pending
  | inProgress
  | resolved
  | closed
deriving DecidableEq, Repr

/-- Complaint priorities, from the `complaintSchema` priority enum. -/
inductive Priority
  | low
  | medium
  | high
deriving DecidableEq, Repr

/-- Notification kinds, from the `notificationSchema` type enum. -/
inductive NotifType
  | info
  | warning
  | success
  | error
deriving DecidableEq, Repr

/-- The HTTP error outcomes of the controllers, named after the error
taxonomy of the design: 404 responses are `notFound`, 403 responses are
`forbidden`, the 400 response of the status/rating guards is
`invalidTransition`, the 400 "Invalid staff member" response is
`invalidAssignee`, and the remaining 400 responses ("Rating must be between
1 and 5", empty id arrays) are `validationError`. -/
inductive ApiError
  | notFound
  | forbidden
  | invalidTransition
  | invalidAssignee
  | validationError
deriving DecidableEq, Repr

/-- One entry of `IComplaintHistory`. -/
structure HistoryEntry where
  action : String
  performedBy : Nat
  previousStatus : Option CStatus
  newStatus : Option CStatus
  notes : Option String
  timestamp : Nat
deriving DecidableEq, Repr

/-- One entry of `IComplaintComment`. -/
structure CComment where
  userId : Nat
  message : String
  isInternal : Bool
  createdAt : Nat
deriving DecidableEq, Repr

/-- The `IComplaint` document. -/
structure Complaint where
  id : Nat
  userId : Nat
  title : String
  description : String
  category : String
  status : CStatus
  priority : Priority
  attachments : List String
  response : Option String
  assignedTo : Option Nat
  resolvedBy : Option Nat
  resolvedAt : Option Nat
  comments : List CComment
  history : List HistoryEntry
  rating : Option Nat
  feedback : Option String
  escalationLevel : Nat
deriving DecidableEq, Repr

/-- The `IUser` document, restricted to the fields the complaint
controllers read. -/
structure User where
  id : Nat
  firstName : String
  lastName : String
  role : Role
  isVerified : Bool
deriving DecidableEq, Repr

/-- The `INotification` document. -/
structure Notification where
  id : Nat
  userId : Nat
  title : String
  message : String
  type : NotifType
  isRead : Bool
  relatedId : Option Nat
  createdAt : Nat
deriving DecidableEq, Repr

/-- Payload fields of a socket emission that the claims are about: whether
the event carries a comment message, and the comment's isInternal flag. -/
structure Payload where
  message : Option String
  isInternal : Option Bool
deriving DecidableEq, Repr

/-- An empty payload for emissions whose payload carries no comment text. -/
def noPayload : Payload := { message := none, isInternal := none }

/-- A side effect performed by a controller, in program order:
a `Notification.create` insert, or a socket.io room emission. -/
inductive SideEffect
  | persistNotification (n : Notification)
  | emitUser (userId : Nat) (event : String) (payload : Payload)
  | emitComplaint (complaintId : Nat) (event : String) (payload : Payload)
  | emitStaff (event : String) (payload : Payload)
deriving DecidableEq, Repr

/-- Result of a controller call: the response (success value or error
status) and the ordered side effects it performed. -/
structure OpResult (α : Type) where
  result : Except ApiError α
  effects : List SideEffect
deriving Repr

/-- Summary returned by the bulk controllers: mongo's `matchedCount` and
`modifiedCount`. -/
structure BulkSummary where
  matched : Nat
  modified : Nat
deriving DecidableEq, Repr

/-- `emitToUser` from `socket.ts`: emits to room `user:<id>` only when the
io handle is initialized (`if (io) ...`), otherwise does nothing. -/
def emitToUser (ioUp : Bool) (userId : Nat) (event : String) (p : Payload) :
    List SideEffect :=
  if ioUp then [SideEffect.emitUser userId event p] else []

/-- `emitToComplaint` from `socket.ts`: emits to room `complaint:<id>` only
when the io handle is initialized. -/
def emitToComplaint (ioUp : Bool) (complaintId : Nat) (event : String)
    (p : Payload) : List SideEffect :=
  if ioUp then [SideEffect.emitComplaint complaintId event p] else []

/-- `emitToStaff` from `socket.ts`: emits to `staff-room` only when the io
handle is initialized. -/
def emitToStaff (ioUp : Bool) (event : String) (p : Payload) :
    List SideEffect :=
  if ioUp then [SideEffect.emitStaff event p] else []

/-- The lifecycle transition graph as stated by the design (§4.6):
`pending → {in-progress, closed}`, `in-progress → {resolved, closed}`,
`resolved → {closed}`.  The controllers themselves never consult this;
it only serves to state the claims about transition validity. -/
def canTransition : CStatus → CStatus → Bool
  | .pending, .inProgress => true
  | .pending, .closed => true
  | .inProgress, .resolved => true
  | .inProgress, .closed => true
  | .resolved, .closed => true
  | _, _ => false

/-- `Complaint.findById` over a store of documents. -/
def findById (store : List Complaint) (cid : Nat) : Option Complaint :=
  store.find? (fun c => c.id == cid)

/-- `User.findById` over a store of user documents. -/
def findUser (users : List User) (uid : Nat) : Option User :=
  users.find? (fun u => u.id == uid)

/-- Rendering of a status exactly as the string enum of the schema. -/
def statusString : CStatus → String
  | .pending => "pending"
  | .inProgress => "in-progress"
  | .resolved => "resolved"
  | .closed => "closed"

/-- The `notificationMessages` record of `updateComplaintStatus`, with the
controller's fallback string for a status not in the record. -/
def notificationMessages : CStatus → String
  | .inProgress => "Your complaint is now being processed by our team."
  | .resolved => "Your complaint has been resolved. Please provide feedback!"
  | .closed => "Your complaint has been closed."
  | .pending => "Your complaint status has been updated."

/-- `updateComplaintStatus` from `complaintController.ts` (lines 194-283).
Loads the complaint (`none` models a failed `findById`, yielding 404);
records `previousStatus`; builds the update: new `status`, `response` when
supplied, `resolvedBy`/`resolvedAt` when entering resolved or closed, and a
`$push` of one history entry — all applied by a single
`findByIdAndUpdate`; then creates one notification for the complaint owner
and emits to `user:<ownerId>` and `complaint:<id>`.  No reachability check
against the transition graph appears anywhere in the controller (the route
only guards the caller role and the enum validity of `status`). -/
def updateComplaintStatus (actorId : Nat) (status : CStatus)
    (response : Option String) (complaint : Option Complaint)
    (freshId : Nat) (ioUp : Bool) (now : Nat) : OpResult Complaint :=
  match complaint with
  | none => { result := .error .notFound, effects := [] }
  | some c =>
    let previousStatus := c.status
    let entry : HistoryEntry :=
      { action := "Status updated", performedBy := actorId,
        previousStatus := some previousStatus, newStatus := some status,
        notes := response, timestamp := now }
    let updated : Complaint :=
      { c with
        status := status,
        response := match response with | some r => some r | none => c.response,
        resolvedBy :=
          if status = .resolved ∨ status = .closed then some actorId
          else c.resolvedBy,
        resolvedAt :=
          if status = .resolved ∨ status = .closed then some now
          else c.resolvedAt,
        history := c.history ++ [entry] }
    let notif : Notification :=
      { id := freshId, userId := c.userId, title := "Complaint Update",
        message := notificationMessages status,
        type := if status = .resolved then .success else .info,
        isRead := false, relatedId := some c.id, createdAt := now }
    { result := .ok updated,
      effects :=
        [SideEffect.persistNotification notif]
          ++ emitToUser ioUp c.userId "complaint:status-changed" noPayload
          ++ emitToComplaint ioUp c.id "status:updated"
              { message := response, isInternal := none } }

/-- `assignComplaint` from `complaintController.ts` (lines 285-352).
Looks up `staffId`; a missing user or one whose role is not `staff`
yields the 400 "Invalid staff member" response (`invalidAssignee`) before
the complaint is touched — the `isVerified` flag is never read.  On
success the single `findByIdAndUpdate` sets `assignedTo` and pushes one
history entry, then the assignee is notified. -/
def assignComplaint (actorId : Nat) (staffId : Nat) (users : List User)
    (complaint : Option Complaint) (freshId : Nat) (ioUp : Bool)
    (now : Nat) : OpResult Complaint :=
  match findUser users staffId with
  | none => { result := .error .invalidAssignee, effects := [] }
  | some staff =>
    if staff.role ≠ .staff then
      { result := .error .invalidAssignee, effects := [] }
    else
      match complaint with
      | none => { result := .error .notFound, effects := [] }
      | some c =>
        let updated : Complaint :=
          { c with
            assignedTo := some staffId,
            history := c.history ++
              [{ action := "Complaint assigned", performedBy := actorId,
                 previousStatus := none, newStatus := none,
                 notes := some ("Assigned to " ++ staff.firstName ++ " "
                   ++ staff.lastName),
                 timestamp := now }] }
        let notif : Notification :=
          { id := freshId, userId := staffId, title := "Complaint Assigned",
            message := "You have been assigned a new complaint: " ++ c.title,
            type := .info, isRead := false, relatedId := some c.id,
            createdAt := now }
        { result := .ok updated,
          effects :=
            [SideEffect.persistNotification notif]
              ++ emitToUser ioUp staffId "complaint:assigned" noPayload }

/-- `addComment` from `complaintController.ts` (lines 354-429).
A single `findByIdAndUpdate` pushes the comment and one history entry.
The owner is notified (insert + `user:<ownerId>` emission) only when the
comment is not internal and the author is not the owner; the
`comment:added` emission to room `complaint:<id>` is unconditional and
carries the full comment, including an internal one. -/
def addComment (actorId : Nat) (message : String) (isInternal : Bool)
    (complaint : Option Complaint) (freshId : Nat) (ioUp : Bool)
    (now : Nat) : OpResult Complaint :=
  match complaint with
  | none => { result := .error .notFound, effects := [] }
  | some c =>
    let updated : Complaint :=
      { c with
        comments := c.comments ++
          [{ userId := actorId, message := message,
             isInternal := isInternal, createdAt := now }],
        history := c.history ++
          [{ action := "Comment added", performedBy := actorId,
             previousStatus := none, newStatus := none,
             notes := some (if isInternal then "Internal note added"
               else "Public comment added"),
             timestamp := now }] }
    let ownerFx : List SideEffect :=
      if ¬ isInternal ∧ c.userId ≠ actorId then
        [SideEffect.persistNotification
          { id := freshId, userId := c.userId,
            title := "New Comment on Your Complaint",
            message := "A new comment has been added to your complaint: "
              ++ c.title,
            type := .info, isRead := false, relatedId := some c.id,
            createdAt := now }]
          ++ emitToUser ioUp c.userId "complaint:new-comment"
              { message := some message, isInternal := none }
      else []
    { result := .ok updated,
      effects :=
        ownerFx
          ++ emitToComplaint ioUp c.id "comment:added"
              { message := some message, isInternal := some isInternal } }

/-- `rateComplaint` from `complaintController.ts` (lines 431-506).
Guard order as in the source: rating range first (400,
`validationError`), then existence (404), then ownership (403,
`forbidden`), then the resolved-status guard (400 "Only resolved
complaints can be rated", `invalidTransition`).  The controller then
overwrites `rating` and `feedback` unconditionally — no check that a
rating was already set — and notifies the assignee when present. -/
def rateComplaint (actorId : Nat) (rating : Nat) (feedback : Option String)
    (complaint : Option Complaint) (freshId : Nat) (ioUp : Bool)
    (now : Nat) : OpResult Complaint :=
  if rating < 1 ∨ rating > 5 then
    { result := .error .validationError, effects := [] }
  else
    match complaint with
    | none => { result := .error .notFound, effects := [] }
    | some c =>
      if c.userId ≠ actorId then
        { result := .error .forbidden, effects := [] }
      else if c.status ≠ .resolved then
        { result := .error .invalidTransition, effects := [] }
      else
        let updated : Complaint :=
          { c with rating := some rating, feedback := feedback }
        let fx : List SideEffect :=
          match c.assignedTo with
          | some staffId =>
            [SideEffect.persistNotification
              { id := freshId, userId := staffId, title := "Complaint Rated",
                message := "Your resolved complaint received a "
                  ++ toString rating ++ "-star rating",
                type := .info, isRead := false, relatedId := some c.id,
                createdAt := now }]
              ++ emitToUser ioUp staffId "complaint:rated" noPayload
          | none => []
        { result := .ok updated, effects := fx }

/-- The `for (const admin of admins)` loop of `escalateComplaint`: one
notification insert and one `user:<adminId>` emission per admin, in list
order, with the generated notification ids threaded through. -/
def escalateAdminFx (cid : Nat) (title : String) (level : Nat)
    (ioUp : Bool) (now : Nat) : Nat → List User → List SideEffect
  | _, [] => []
  | fid, a :: rest =>
    [SideEffect.persistNotification
      { id := fid, userId := a.id, title := "Complaint Escalated",
        message := "Complaint \"" ++ title
          ++ "\" has been escalated (Level " ++ toString level ++ ")",
        type := .warning, isRead := false, relatedId := some cid,
        createdAt := now }]
      ++ emitToUser ioUp a.id "complaint:escalated" noPayload
      ++ escalateAdminFx cid title level ioUp now (fid + 1) rest

/-- `escalateComplaint` from `complaintController.ts` (lines 508-566).
Increments `escalationLevel`, forces `priority` to high, pushes one
history entry, saves, then loops over `User.find({ role: "admin" })`
notifying every admin.  The `status` field is never written. -/
def escalateComplaint (actorId : Nat) (complaint : Option Complaint)
    (users : List User) (freshId : Nat) (ioUp : Bool) (now : Nat) :
    OpResult Complaint :=
  match complaint with
  | none => { result := .error .notFound, effects := [] }
  | some c =>
    let newLevel := c.escalationLevel + 1
    let updated : Complaint :=
      { c with
        escalationLevel := newLevel,
        priority := .high,
        history := c.history ++
          [{ action := "Complaint escalated", performedBy := actorId,
             previousStatus := none, newStatus := none,
             notes := some ("Escalation level increased to "
               ++ toString newLevel),
             timestamp := now }] }
    let admins := users.filter (fun u => u.role == Role.admin)
    { result := .ok updated,
      effects := escalateAdminFx c.id c.title newLevel ioUp now freshId admins }

/-- `deleteComplaint` from `complaintController.ts` (lines 568-607).
Loads the complaint (404 when missing); the single guard
`complaint.status !== "pending" || complaint.userId !== req.user?.id`
yields 403 for every combination other than a pending complaint deleted
by its owner — the caller's role is never consulted.  On success the one
document is removed from the store. -/
def deleteComplaint (actorId : Nat) (actorRole : Role) (cid : Nat)
    (store : List Complaint) : Except ApiError Unit × List Complaint :=
  match findById store cid with
  | none => (.error .notFound, store)
  | some c =>
    if c.status ≠ .pending ∨ c.userId ≠ actorId then
      (.error .forbidden, store)
    else
      (.ok (), store.eraseP (fun x => x.id == cid))

/-- `bulkDelete` from `bulkOperationsController.ts` (lines 188-226).
Requires a non-empty id array, then
`deleteMany({ _id: { $in: complaintIds }, status: "pending" })`: only
pending complaints among the given ids are removed, whatever the caller's
role; the response reports the deleted count. -/
def bulkDelete (ids : List Nat) (store : List Complaint) :
    Except ApiError Nat × List Complaint :=
  if ids.isEmpty then (.error .validationError, store)
  else
    let remaining :=
      store.filter (fun c => !(ids.contains c.id && c.status == CStatus.pending))
    (.ok (store.length - remaining.length), remaining)

/-- The per-document update of `bulkUpdateStatus`: new status, optional
response, `resolvedBy`/`resolvedAt` when entering resolved or closed, and
a `$push` of one "Bulk status update" history entry (which records only
`newStatus`, not the previous one). -/
def bulkStatusDoc (actorId : Nat) (status : CStatus)
    (response : Option String) (now : Nat) (c : Complaint) : Complaint :=
  { c with
    status := status,
    response := match response with | some r => some r | none => c.response,
    resolvedBy :=
      if status = .resolved ∨ status = .closed then some actorId
      else c.resolvedBy,
    resolvedAt :=
      if status = .resolved ∨ status = .closed then some now
      else c.resolvedAt,
    history := c.history ++
      [{ action := "Bulk status update", performedBy := actorId,
         previousStatus := none, newStatus := some status,
         notes := some (response.getD "Bulk update performed"),
         timestamp := now }] }

/-- The notification loop of `bulkUpdateStatus`: for each affected
complaint, one owner notification insert, one `user:<ownerId>` emission
and one `complaint:<id>` emission, in list order. -/
def bulkStatusFx (status : CStatus) (ioUp : Bool) (now : Nat) :
    Nat → List Complaint → List SideEffect
  | _, [] => []
  | fid, c :: rest =>
    [SideEffect.persistNotification
      { id := fid, userId := c.userId, title := "Complaint Updated",
        message := "Your complaint \"" ++ c.title
          ++ "\" status has been updated to " ++ statusString status,
        type := if status = .resolved then .success else .info,
        isRead := false, relatedId := some c.id, createdAt := now }]
      ++ emitToUser ioUp c.userId "complaint:updated" noPayload
      ++ emitToComplaint ioUp c.id "status:changed" noPayload
      ++ bulkStatusFx status ioUp now (fid + 1) rest

/-- `bulkUpdateStatus` from `bulkOperationsController.ts` (lines 14-107).
Requires a non-empty id array, then a single `updateMany` over the filter
`{ _id: { $in: complaintIds } }` applies `bulkStatusDoc` to every matching
document — there is no eligibility condition on the current status.
`matchedCount` is the number of store documents whose id is listed;
because the update always `$push`es a fresh history entry, every matched
document is modified, so `modifiedCount` equals `matchedCount`.  The
controller then re-reads the matching complaints and notifies each owner
separately. -/
def bulkUpdateStatus (actorId : Nat) (ids : List Nat) (status : CStatus)
    (response : Option String) (store : List Complaint) (freshId : Nat)
    (ioUp : Bool) (now : Nat) : OpResult BulkSummary × List Complaint :=
  if ids.isEmpty then
    ({ result := .error .validationError, effects := [] }, store)
  else
    let store' := store.map (fun c =>
      if ids.contains c.id then bulkStatusDoc actorId status response now c
      else c)
    let affected := store'.filter (fun c => ids.contains c.id)
    let matched := affected.length
    ({ result := .ok { matched := matched, modified := matched },
       effects := bulkStatusFx status ioUp now freshId affected }, store')

/-- `bulkAssign` from `bulkOperationsController.ts` (lines 109-186).
Requires a non-empty id array, then performs the same assignee check as
`assignComplaint` (role must be `staff`; `isVerified` is never read)
before touching any complaint.  A single `updateMany` sets `assignedTo`
and pushes one history entry on every matching document; one single
notification (with no related id) is then created for the assignee. -/
def bulkAssign (actorId : Nat) (ids : List Nat) (staffId : Nat)
    (users : List User) (store : List Complaint) (freshId : Nat)
    (ioUp : Bool) (now : Nat) : OpResult BulkSummary × List Complaint :=
  if ids.isEmpty then
    ({ result := .error .validationError, effects := [] }, store)
  else
    match findUser users staffId with
    | none => ({ result := .error .invalidAssignee, effects := [] }, store)
    | some staff =>
      if staff.role ≠ .staff then
        ({ result := .error .invalidAssignee, effects := [] }, store)
      else
        let store' := store.map (fun c =>
          if ids.contains c.id then
            { c with
              assignedTo := some staffId,
              history := c.history ++
                [{ action := "Bulk assignment", performedBy := actorId,
                   previousStatus := none, newStatus := none,
                   notes := some ("Bulk assigned to " ++ staff.firstName
                     ++ " " ++ staff.lastName),
                   timestamp := now }] }
          else c)
        let matched := (store.filter (fun c => ids.contains c.id)).length
        ({ result := .ok { matched := matched, modified := matched },
           effects :=
             [SideEffect.persistNotification
               { id := freshId, userId := staffId, title := "Bulk Assignment",
                 message := "You have been assigned " ++ toString matched
                   ++ " new complaints",
                 type := .info, isRead := false, relatedId := none,
                 createdAt := now }]
               ++ emitToUser ioUp staffId "complaints:bulk-assigned"
                   noPayload }, store')

/-- Insertion into a list sorted by `createdAt` descending; models the
relative order produced by `.sort({ createdAt: -1 })`. -/
def insertByCreatedAtDesc (n : Notification) :
    List Notification → List Notification
  | [] => [n]
  | m :: ms =>
    if n.createdAt ≥ m.createdAt then n :: m :: ms
    else m :: insertByCreatedAtDesc n ms

/-- Sort by `createdAt` descending, models `.sort({ createdAt: -1 })`. -/
def sortByCreatedAtDesc : List Notification → List Notification
  | [] => []
  | n :: ns => insertByCreatedAtDesc n (sortByCreatedAtDesc ns)

/-- Response shape of `getNotifications`. -/
structure NotificationsPage where
  notifications : List Notification
  unreadCount : Nat
deriving DecidableEq, Repr

/-- `getNotifications` from `notificationController.ts` (lines 5-39):
`Notification.find({ userId: caller, isRead? })`, sorted by `createdAt`
descending, limited to 50, plus the caller's unread count. -/
def getNotifications (callerId : Nat) (isRead : Option Bool)
    (store : List Notification) : NotificationsPage :=
  let own := store.filter (fun n =>
    n.userId == callerId &&
      match isRead with
      | some b => n.isRead == b
      | none => true)
  { notifications := (sortByCreatedAtDesc own).take 50,
    unreadCount :=
      (store.filter (fun n => n.userId == callerId && !n.isRead)).length }

/-- `markAsRead` from `notificationController.ts` (lines 41-73):
`findOne({ _id: id, userId: caller })` — a notification id that does not
belong to the caller is simply not found (404) and nothing changes;
otherwise the one matching document gets `isRead := true`. -/
def markAsRead (callerId : Nat) (nid : Nat) (store : List Notification) :
    Except ApiError Unit × List Notification :=
  match store.find? (fun n => n.id == nid && n.userId == callerId) with
  | none => (.error .notFound, store)
  | some _ =>
    (.ok (), store.map (fun n =>
      if n.id == nid && n.userId == callerId then { n with isRead := true }
      else n))

/-- `markAllAsRead` from `notificationController.ts` (lines 75-95):
`updateMany({ userId: caller, isRead: false }, { isRead: true })`. -/
def markAllAsRead (callerId : Nat) (store : List Notification) :
    List Notification :=
  store.map (fun n =>
    if n.userId == callerId && !n.isRead then { n with isRead := true }
    else n)

/-- `deleteNotification` from `notificationController.ts` (lines 97-127):
`findOne({ _id: id, userId: caller })` — not found (404, no change) unless
the id belongs to the caller; otherwise that one document is deleted. -/
def deleteNotification (callerId : Nat) (nid : Nat)
    (store : List Notification) :
    Except ApiError Unit × List Notification :=
  match store.find? (fun n => n.id == nid && n.userId == callerId) with
  | none => (.error .notFound, store)
  | some _ =>
    (.ok (), store.eraseP (fun n => n.id == nid && n.userId == callerId))

/-- Applying a controller's side effects to the durable notification
store: `persistNotification` inserts; emissions touch no persisted
state. -/
def applyEffects (fx : List SideEffect) (store : List Notification) :
    List Notification :=
  fx.foldl (fun s e =>
    match e with
    | .persistNotification n => s ++ [n]
    | _ => s) store

/-- The notifications persisted by an effect list, in order. -/
def persisted (fx : List SideEffect) : List Notification :=
  fx.filterMap (fun e =>
    match e with
    | .persistNotification n => some n
    | _ => none)

/-- The recipients of the notifications persisted by an effect list. -/
def notifRecipients (fx : List SideEffect) : List Nat :=
  (persisted fx).map Notification.userId

/-- The side effects observable by a given user over the socket layer and
the durable inbox: their own persisted notifications, emissions to their
`user:<id>` room, and emissions to every `complaint:<id>` room their
connection has joined — `socket.ts` joins any authenticated connection to
any complaint room on a `subscribe:complaint` message, with no ownership
or role check, so the reporting resident can be subscribed to their own
complaint's room. -/
def observedBy (userId : Nat) (joinedComplaints : List Nat)
    (fx : List SideEffect) : List SideEffect :=
  fx.filter (fun e =>
    match e with
    | .persistNotification n => n.userId == userId
    | .emitUser uid _ _ => uid == userId
    | .emitComplaint cid _ _ => joinedComplaints.contains cid
    | .emitStaff _ _ => false)

/-! ### Concrete fixtures used by counterexamples and witnesses -/

/-- A pending complaint owned by resident 1. -/
def exPending : Complaint :=
  { id := 10, userId := 1, title := "Broken streetlight",
    description := "The streetlight on Mabini St is out",
    category := "infrastructure", status := .pending, priority := .medium,
    attachments := [], response := none, assignedTo := none,
    resolvedBy := none, resolvedAt := none, comments := [], history := [],
    rating := none, feedback := none, escalationLevel := 0 }

/-- The same complaint once closed. -/
def exClosed : Complaint := { exPending with status := .closed }

/-- The same complaint while in progress. -/
def exInProgress : Complaint := { exPending with status := .inProgress }

/-- The same complaint resolved with an assignee. -/
def exResolved : Complaint :=
  { exPending with status := .resolved, assignedTo := some 3 }

/-- A resolved complaint that has already been rated 3 by its owner. -/
def exRated : Complaint :=
  { exPending with
    status := .resolved, rating := some 3, feedback := some "ok" }

/-- A staff account that is not verified. -/
def unverifiedStaff : User :=
  { id := 3, firstName := "Juan", lastName := "Cruz", role := .staff,
    isVerified := false }

/-! ### Claim theorems -/

/-- C1 counterexample: from `closed` the target `in-progress` is not
reachable in the transition graph, yet `updateComplaintStatus` succeeds
and appends an audit entry rather than failing with `InvalidTransition`
and leaving the ticket unchanged. -/
theorem updateComplaintStatus_closed_to_inProgress_succeeds :
    canTransition CStatus.closed CStatus.inProgress = false ∧
    (updateComplaintStatus 2 CStatus.inProgress none (some exClosed) 9
        true 0).result =
      Except.ok { exClosed with
        status := CStatus.inProgress,
        history :=
          [{ action := "Status updated", performedBy := 2,
             previousStatus := some CStatus.closed,
             newStatus := some CStatus.inProgress, notes := none,
             timestamp := 0 }] } :=
  ⟨rfl, rfl⟩

/-- C1 (amended): `updateComplaintStatus` performs no reachability
validation at all: for every current status and every requested target —
including every pair that is invalid in the transition graph — the
operation succeeds, sets the status to the target and appends exactly one
audit entry; it never fails with `InvalidTransition`. -/
theorem updateComplaintStatus_ignores_transition_graph
    (actorId freshId now : Nat) (ioUp : Bool) (resp : Option String)
    (c : Complaint) (t : CStatus) :
    ∃ u, (updateComplaintStatus actorId t resp (some c) freshId ioUp
        now).result = Except.ok u ∧
      u.status = t ∧ u.history.length = c.history.length + 1 := by
  refine ⟨_, rfl, rfl, ?_⟩
  simp [updateComplaintStatus]

/-- C2 counterexample: the owning resident cannot delete an in-progress
complaint (403), an admin cannot delete a complaint they do not own
(403), and `bulkDelete` leaves a non-pending complaint in place —
contradicting the claim that the owner may delete in-progress tickets and
that admin or staff may delete a ticket in any status. -/
theorem delete_not_allowed_beyond_owned_pending :
    deleteComplaint 1 Role.resident 10 [exInProgress] =
      (Except.error ApiError.forbidden, [exInProgress]) ∧
    deleteComplaint 99 Role.admin 10 [exInProgress] =
      (Except.error ApiError.forbidden, [exInProgress]) ∧
    bulkDelete [10] [exInProgress] = (Except.ok 0, [exInProgress]) :=
  ⟨rfl, rfl, rfl⟩

/-- C2 (amended): deletion through `deleteComplaint` succeeds exactly when
the complaint is pending and the caller is its owner; the caller's role is
never consulted (any two roles behave identically), every other
combination fails with `Forbidden` leaving the store untouched, and
`bulkDelete` never removes a complaint whose status is not pending. -/
theorem deleteComplaint_owner_pending_only
    (actorId cid : Nat) (r r2 : Role) (store : List Complaint)
    (c : Complaint) (hfind : findById store cid = some c) :
    ((deleteComplaint actorId r cid store).1 = Except.ok () ↔
      c.status = CStatus.pending ∧ c.userId = actorId) ∧
    deleteComplaint actorId r cid store =
      deleteComplaint actorId r2 cid store ∧
    (¬ (c.status = CStatus.pending ∧ c.userId = actorId) →
      deleteComplaint actorId r cid store =
        (Except.error ApiError.forbidden, store)) ∧
    (∀ (ids : List Nat) (x : Complaint), x ∈ store →
      x.status ≠ CStatus.pending → x ∈ (bulkDelete ids store).2) := by
  refine ⟨?_, ?_, ?_, ?_⟩
  · simp only [deleteComplaint, hfind]
    by_cases h1 : c.status = CStatus.pending <;>
      by_cases h2 : c.userId = actorId <;> simp [h1, h2]
  · simp only [deleteComplaint]
  · intro hno
    simp only [deleteComplaint, hfind]
    by_cases h1 : c.status = CStatus.pending <;>
      by_cases h2 : c.userId = actorId <;> simp [h1, h2] <;>
      exact absurd ⟨h1, h2⟩ hno
  · intro ids x hx hstatus
    simp only [bulkDelete]
    by_cases hids : ids.isEmpty
    · simp [hids, hx]
    · simp only [hids, if_false, Bool.false_eq_true]
      rw [List.mem_filter]
      refine ⟨hx, ?_⟩
      simp [hstatus]

/-- C2 witness: the owner of a pending complaint can delete it. -/
theorem deleteComplaint_owner_pending_only_witness :
    (deleteComplaint 1 Role.resident 10 [exPending]).1 = Except.ok () := by
  have h := deleteComplaint_owner_pending_only 1 10 Role.resident Role.admin
    [exPending] exPending rfl
  exact h.1.mpr ⟨rfl, rfl⟩

/-- C3: for every valid pair in the transition graph the operation
succeeds: the single document update sets the target status, appends
exactly one audit entry whose `previousStatus` is the prior status and
whose `newStatus` is the target, and stamps `resolvedBy`/`resolvedAt`
with the actor and current time when entering resolved or closed; the
history append is a field of the same update as the status change. -/
theorem transition_valid_appends_audit
    (actorId freshId now : Nat) (ioUp : Bool) (resp : Option String)
    (c : Complaint) (t : CStatus)
    (hvalid : canTransition c.status t = true) :
    ∃ u, (updateComplaintStatus actorId t resp (some c) freshId ioUp
        now).result = Except.ok u ∧
      u.status = t ∧
      u.history = c.history ++
        [{ action := "Status updated", performedBy := actorId,
           previousStatus := some c.status, newStatus := some t,
           notes := resp, timestamp := now }] ∧
      ((t = CStatus.resolved ∨ t = CStatus.closed) →
        u.resolvedBy = some actorId ∧ u.resolvedAt = some now) := by
  refine ⟨_, rfl, rfl, rfl, fun ht => ⟨?_, ?_⟩⟩ <;>
    simp [updateComplaintStatus, if_pos ht]

/-- C3 witness: the valid pair pending → in-progress at concrete
inputs. -/
theorem transition_valid_appends_audit_witness :
    canTransition exPending.status CStatus.inProgress = true ∧
    ∃ u, (updateComplaintStatus 2 CStatus.inProgress none (some exPending)
        9 true 0).result = Except.ok u ∧
      u.status = CStatus.inProgress ∧
      u.history = exPending.history ++
        [{ action := "Status updated", performedBy := 2,
           previousStatus := some exPending.status,
           newStatus := some CStatus.inProgress,
           notes := none, timestamp := 0 }] ∧
      ((CStatus.inProgress = CStatus.resolved ∨
          CStatus.inProgress = CStatus.closed) →
        u.resolvedBy = some 2 ∧ u.resolvedAt = some 0) :=
  ⟨rfl, transition_valid_appends_audit 2 9 0 true none exPending
    CStatus.inProgress rfl⟩

/-- C4 counterexample: a resolved complaint that already carries a rating
is rated again by its owner and the call succeeds, overwriting the stored
rating and feedback — the rating is not settable only once. -/
theorem rateComplaint_overwrites_existing_rating :
    exRated.rating = some 3 ∧
    (rateComplaint 1 4 none (some exRated) 9 true 0).result =
      Except.ok { exRated with rating := some 4, feedback := none } :=
  ⟨rfl, rfl⟩

/-- C4 (amended): with the guards in source order, `rateComplaint` fails
with `ValidationError` when the rating is outside [1,5]; with an in-range
rating it fails with `Forbidden` for any caller other than the owner and
with `InvalidTransition` when the status is not resolved; and for the
owner of a resolved complaint it always succeeds, overwriting any
previously stored rating and feedback (a rating is not settable only
once). -/
theorem rateComplaint_guards
    (actorId freshId now : Nat) (ioUp : Bool) (rating : Nat)
    (fb : Option String) (c : Complaint) :
    (rating < 1 ∨ rating > 5 →
      (rateComplaint actorId rating fb (some c) freshId ioUp now).result =
        Except.error ApiError.validationError) ∧
    (1 ≤ rating → rating ≤ 5 → c.userId ≠ actorId →
      (rateComplaint actorId rating fb (some c) freshId ioUp now).result =
        Except.error ApiError.forbidden) ∧
    (1 ≤ rating → rating ≤ 5 → c.userId = actorId →
        c.status ≠ CStatus.resolved →
      (rateComplaint actorId rating fb (some c) freshId ioUp now).result =
        Except.error ApiError.invalidTransition) ∧
    (1 ≤ rating → rating ≤ 5 → c.userId = actorId →
        c.status = CStatus.resolved →
      (rateComplaint actorId rating fb (some c) freshId ioUp now).result =
        Except.ok { c with rating := some rating, feedback := fb }) := by
  refine ⟨?_, ?_, ?_, ?_⟩
  · intro h
    simp only [rateComplaint]
    rw [if_pos h]
  · intro h1 h5 hown
    simp [rateComplaint, hown]
    rw [if_neg (show ¬ (rating = 0 ∨ 5 < rating) by omega)]
  · intro h1 h5 hown hst
    simp [rateComplaint, hown, hst]
    rw [if_neg (show ¬ (rating = 0 ∨ 5 < rating) by omega)]
  · intro h1 h5 hown hst
    simp [rateComplaint, hown, hst]
    rw [if_neg (show ¬ (rating = 0 ∨ 5 < rating) by omega)]

/-- C4 witness: the owner rating an unrated resolved complaint with an
in-range value succeeds. -/
theorem rateComplaint_guards_witness :
    (rateComplaint 1 4 none (some exResolved) 9 true 0).result =
      Except.ok { exResolved with rating := some 4, feedback := none } := by
  have h := rateComplaint_guards 1 9 0 true 4 none exResolved
  exact h.2.2.2 (by decide) (by decide) rfl rfl

/-! ### Helper lemmas about side-effect lists -/

/-- Recipient extraction distributes over concatenation. -/
theorem notifRecipients_append (xs ys : List SideEffect) :
    notifRecipients (xs ++ ys) =
      notifRecipients xs ++ notifRecipients ys := by
  simp [notifRecipients, persisted, List.filterMap_append]

/-- No effects, no recipients. -/
theorem notifRecipients_nil : notifRecipients [] = [] := rfl

/-- A persisted notification contributes its recipient. -/
theorem notifRecipients_cons_persist (n : Notification)
    (fx : List SideEffect) :
    notifRecipients (SideEffect.persistNotification n :: fx) =
      n.userId :: notifRecipients fx := by
  simp [notifRecipients, persisted]

/-- A user-room emission persists nothing. -/
theorem notifRecipients_emitToUser (ioUp : Bool) (uid : Nat) (ev : String)
    (p : Payload) : notifRecipients (emitToUser ioUp uid ev p) = [] := by
  cases ioUp <;> simp [emitToUser, notifRecipients, persisted]

/-- A complaint-room emission persists nothing. -/
theorem notifRecipients_emitToComplaint (ioUp : Bool) (cid : Nat)
    (ev : String) (p : Payload) :
    notifRecipients (emitToComplaint ioUp cid ev p) = [] := by
  cases ioUp <;> simp [emitToComplaint, notifRecipients, persisted]

/-- The escalation loop persists exactly one notification per admin, in
account order. -/
theorem notifRecipients_escalateAdminFx (cid : Nat) (title : String)
    (level : Nat) (ioUp : Bool) (now fid : Nat) (admins : List User) :
    notifRecipients (escalateAdminFx cid title level ioUp now fid admins) =
      admins.map User.id := by
  induction admins generalizing fid with
  | nil => rfl
  | cons a rest ih =>
    simp only [escalateAdminFx, List.append_assoc, List.singleton_append,
      List.cons_append, notifRecipients_cons_persist, notifRecipients_append,
      notifRecipients_emitToUser, notifRecipients_nil, List.nil_append, ih,
      List.map_cons]

/-- The bulk-update notification loop persists exactly one notification
per affected complaint owner, in order. -/
theorem notifRecipients_bulkStatusFx (status : CStatus) (ioUp : Bool)
    (now fid : Nat) (cs : List Complaint) :
    notifRecipients (bulkStatusFx status ioUp now fid cs) =
      cs.map Complaint.userId := by
  induction cs generalizing fid with
  | nil => rfl
  | cons c rest ih =>
    simp only [bulkStatusFx, List.append_assoc, List.singleton_append,
      List.cons_append, notifRecipients_cons_persist, notifRecipients_append,
      notifRecipients_emitToUser, notifRecipients_emitToComplaint,
      notifRecipients_nil, List.nil_append, ih, List.map_cons]

/-- C5: every escalation call increments `escalationLevel` by exactly one
(never decreasing it), forces `priority` to high — so it is high after
the first call and stays high on every later one — leaves `status`
untouched, appends exactly one audit entry, and persists one notification
per admin account, in account order. -/
theorem escalate_bumps_level_and_notifies_admins
    (actorId freshId now : Nat) (ioUp : Bool) (c : Complaint)
    (users : List User) :
    ∃ u, (escalateComplaint actorId (some c) users freshId ioUp
        now).result = Except.ok u ∧
      u.escalationLevel = c.escalationLevel + 1 ∧
      u.priority = Priority.high ∧
      u.status = c.status ∧
      u.history.length = c.history.length + 1 ∧
      notifRecipients (escalateComplaint actorId (some c) users freshId
          ioUp now).effects =
        (users.filter (fun a => a.role == Role.admin)).map User.id := by
  refine ⟨_, rfl, rfl, rfl, rfl, ?_, ?_⟩
  · simp [escalateComplaint]
  · show notifRecipients (escalateAdminFx c.id c.title
      (c.escalationLevel + 1) ioUp now freshId
      (users.filter (fun a => a.role == Role.admin))) = _
    exact notifRecipients_escalateAdminFx _ _ _ _ _ _ _

/-- C6 counterexample: a closed complaint is not eligible for the target
`in-progress` in the transition graph, yet `bulkUpdateStatus` counts it
as modified (the claim would require `modified = 0`); and with an id that
matches no document, `matched` falls short of the number of supplied ids
(the claim would require `matched = 2`). -/
theorem bulkUpdateStatus_counts_ineligible_tickets :
    canTransition CStatus.closed CStatus.inProgress = false ∧
    (bulkUpdateStatus 2 [10] CStatus.inProgress none [exClosed] 9 true
        0).1.result = Except.ok { matched := 1, modified := 1 } ∧
    (bulkUpdateStatus 2 [10, 99] CStatus.inProgress none [exClosed] 9 true
        0).1.result = Except.ok { matched := 1, modified := 1 } :=
  ⟨rfl, rfl, rfl⟩

/-- Pointwise effect of the bulk `updateMany`: every listed document gets
the new status and exactly one extra history entry (id and owner
preserved); every unlisted document is untouched. -/
theorem bulkStatusDoc_map_spec (actorId : Nat) (t : CStatus)
    (resp : Option String) (now : Nat) (ids : List Nat)
    (store : List Complaint) :
    List.Forall₂ (fun a b =>
      b.id = a.id ∧ b.userId = a.userId ∧
      (ids.contains a.id = true →
        b.status = t ∧ b.history.length = a.history.length + 1) ∧
      (ids.contains a.id = false → b = a))
      store
      (store.map (fun c =>
        if ids.contains c.id then bulkStatusDoc actorId t resp now c
        else c)) := by
  induction store with
  | nil => constructor
  | cons c rest ih =>
    refine List.Forall₂.cons ?_ ih
    by_cases h : c.id ∈ ids
    · simp [h, bulkStatusDoc]
    · simp [h]

/-- The bulk update preserves the number of documents matching the id
filter, since the per-document update keeps the id. -/
theorem bulkStatusDoc_filter_length (actorId : Nat) (t : CStatus)
    (resp : Option String) (now : Nat) (ids : List Nat)
    (store : List Complaint) :
    ((store.map (fun c =>
        if ids.contains c.id then bulkStatusDoc actorId t resp now c
        else c)).filter (fun c => ids.contains c.id)).length =
      (store.filter (fun c => ids.contains c.id)).length := by
  induction store with
  | nil => rfl
  | cons c rest ih =>
    by_cases h : c.id ∈ ids
    · simp only [List.map_cons]
      simp [h, bulkStatusDoc]
      simpa using ih
    · simp only [List.map_cons]
      simp [h]
      simpa using ih

/-- C6 (amended): `bulkUpdateStatus` applies the update to every supplied
id that exists in the store, with no eligibility condition on the current
status: it reports `matched` = `modified` = the number of store documents
whose id is listed (ids matching no document are not counted); each
listed document independently receives the new status and its own audit
entry while unlisted documents are untouched; and one notification is
persisted per affected document owner — one record per recipient, never a
single multi-recipient one. -/
theorem bulkUpdateStatus_per_ticket
    (actorId freshId now : Nat) (ioUp : Bool) (ids : List Nat)
    (t : CStatus) (resp : Option String) (store : List Complaint)
    (hne : ids ≠ []) :
    (bulkUpdateStatus actorId ids t resp store freshId ioUp now).1.result =
      Except.ok
        { matched := (store.filter (fun c => ids.contains c.id)).length,
          modified := (store.filter (fun c => ids.contains c.id)).length } ∧
    List.Forall₂ (fun a b =>
      b.id = a.id ∧ b.userId = a.userId ∧
      (ids.contains a.id = true →
        b.status = t ∧ b.history.length = a.history.length + 1) ∧
      (ids.contains a.id = false → b = a))
      store (bulkUpdateStatus actorId ids t resp store freshId ioUp now).2 ∧
    notifRecipients
        (bulkUpdateStatus actorId ids t resp store freshId ioUp
          now).1.effects =
      ((bulkUpdateStatus actorId ids t resp store freshId ioUp
          now).2.filter (fun c => ids.contains c.id)).map
        Complaint.userId := by
  cases ids with
  | nil => exact absurd rfl hne
  | cons i is =>
    refine ⟨?_, ?_, ?_⟩
    · show Except.ok _ = Except.ok _
      rw [bulkStatusDoc_filter_length]
    · exact bulkStatusDoc_map_spec actorId t resp now (i :: is) store
    · show notifRecipients (bulkStatusFx t ioUp now freshId _) = _
      exact notifRecipients_bulkStatusFx _ _ _ _ _

/-- C6 witness: one listed pending complaint is matched, modified and its
owner notified. -/
theorem bulkUpdateStatus_per_ticket_witness :
    (bulkUpdateStatus 2 [10] CStatus.inProgress none [exPending] 9 true
        0).1.result = Except.ok { matched := 1, modified := 1 } := by
  have h := bulkUpdateStatus_per_ticket 2 9 0 true [10] CStatus.inProgress
    none [exPending] (by decide)
  exact h.1.trans (by rfl)

/-- Persisted-notification extraction distributes over concatenation. -/
theorem persisted_append (xs ys : List SideEffect) :
    persisted (xs ++ ys) = persisted xs ++ persisted ys := by
  simp [persisted, List.filterMap_append]

/-- No effects, nothing persisted. -/
theorem persisted_nil : persisted [] = [] := rfl

/-- A notification insert is persisted. -/
theorem persisted_cons_persist (n : Notification) (fx : List SideEffect) :
    persisted (SideEffect.persistNotification n :: fx) =
      n :: persisted fx := by
  simp [persisted]

/-- A user-room emission persists nothing, whatever the hub state. -/
theorem persisted_emitToUser (ioUp : Bool) (uid : Nat) (ev : String)
    (p : Payload) : persisted (emitToUser ioUp uid ev p) = [] := by
  cases ioUp <;> simp [emitToUser, persisted]

/-- A complaint-room emission persists nothing, whatever the hub state. -/
theorem persisted_emitToComplaint (ioUp : Bool) (cid : Nat) (ev : String)
    (p : Payload) : persisted (emitToComplaint ioUp cid ev p) = [] := by
  cases ioUp <;> simp [emitToComplaint, persisted]

/-- The notifications persisted by the escalation loop do not depend on
hub availability. -/
theorem persisted_escalateAdminFx (cid : Nat) (title : String)
    (level : Nat) (ioUp : Bool) (now fid : Nat) (admins : List User) :
    persisted (escalateAdminFx cid title level ioUp now fid admins) =
      persisted (escalateAdminFx cid title level false now fid admins) := by
  induction admins generalizing fid with
  | nil => rfl
  | cons a rest ih =>
    simp only [escalateAdminFx, List.append_assoc, List.singleton_append,
      List.cons_append, persisted_cons_persist, persisted_append,
      persisted_emitToUser, persisted_nil, List.nil_append, ih]

/-- The notifications persisted by the bulk-update loop do not depend on
hub availability. -/
theorem persisted_bulkStatusFx (status : CStatus) (ioUp : Bool)
    (now fid : Nat) (cs : List Complaint) :
    persisted (bulkStatusFx status ioUp now fid cs) =
      persisted (bulkStatusFx status false now fid cs) := by
  induction cs generalizing fid with
  | nil => rfl
  | cons c rest ih =>
    simp only [bulkStatusFx, List.append_assoc, List.singleton_append,
      List.cons_append, persisted_cons_persist, persisted_append,
      persisted_emitToUser, persisted_emitToComplaint, persisted_nil,
      List.nil_append, ih]

/-- C7: the notifying mutations persist before publishing and survive an
unavailable hub.  In `updateComplaintStatus` the durable insert for the
owner is the very first side effect, everything after it is
emission-only, and the inserted notification is retrievable for the owner
through `getNotifications` after the effects are applied to the durable
store.  Moreover, for every notifying mutation — status update, comment,
rating, assignment, escalation and bulk update — an unavailable hub
(`ioUp = false`, the `if (io)` guard of `socket.ts` skipping emission)
changes neither the command's response nor the set of persisted
notifications. -/
theorem notification_persisted_before_publish
    (actorId freshId now : Nat) (ioUp : Bool) (resp : Option String)
    (c : Complaint) (t : CStatus) (store : List Notification)
    (message : String) (isInternal : Bool) (rating : Nat)
    (fb : Option String) (staffId : Nat) (users : List User)
    (ids : List Nat) (cstore : List Complaint) (complaint : Option Complaint) :
    (∃ n rest,
      (updateComplaintStatus actorId t resp (some c) freshId ioUp
          now).effects = SideEffect.persistNotification n :: rest ∧
      persisted rest = [] ∧
      n.userId = c.userId ∧
      n ∈ applyEffects (updateComplaintStatus actorId t resp (some c)
        freshId ioUp now).effects store ∧
      n ∈ (getNotifications c.userId none (applyEffects
        (updateComplaintStatus actorId t resp (some c) freshId ioUp
          now).effects [])).notifications) ∧
    ((updateComplaintStatus actorId t resp complaint freshId ioUp
        now).result =
      (updateComplaintStatus actorId t resp complaint freshId false
        now).result ∧
     persisted (updateComplaintStatus actorId t resp complaint freshId
        ioUp now).effects =
      persisted (updateComplaintStatus actorId t resp complaint freshId
        false now).effects) ∧
    ((addComment actorId message isInternal complaint freshId ioUp
        now).result =
      (addComment actorId message isInternal complaint freshId false
        now).result ∧
     persisted (addComment actorId message isInternal complaint freshId
        ioUp now).effects =
      persisted (addComment actorId message isInternal complaint freshId
        false now).effects) ∧
    ((rateComplaint actorId rating fb complaint freshId ioUp now).result =
      (rateComplaint actorId rating fb complaint freshId false
        now).result ∧
     persisted (rateComplaint actorId rating fb complaint freshId ioUp
        now).effects =
      persisted (rateComplaint actorId rating fb complaint freshId false
        now).effects) ∧
    ((assignComplaint actorId staffId users complaint freshId ioUp
        now).result =
      (assignComplaint actorId staffId users complaint freshId false
        now).result ∧
     persisted (assignComplaint actorId staffId users complaint freshId
        ioUp now).effects =
      persisted (assignComplaint actorId staffId users complaint freshId
        false now).effects) ∧
    ((escalateComplaint actorId complaint users freshId ioUp now).result =
      (escalateComplaint actorId complaint users freshId false
        now).result ∧
     persisted (escalateComplaint actorId complaint users freshId ioUp
        now).effects =
      persisted (escalateComplaint actorId complaint users freshId false
        now).effects) ∧
    ((bulkUpdateStatus actorId ids t resp cstore freshId ioUp
        now).1.result =
      (bulkUpdateStatus actorId ids t resp cstore freshId false
        now).1.result ∧
     persisted (bulkUpdateStatus actorId ids t resp cstore freshId ioUp
        now).1.effects =
      persisted (bulkUpdateStatus actorId ids t resp cstore freshId false
        now).1.effects) := by
  refine ⟨?_, ?_, ?_, ?_, ?_, ?_, ?_⟩
  · cases ioUp <;>
      refine ⟨_, _, rfl, rfl, rfl, ?_, ?_⟩ <;>
      simp [updateComplaintStatus, emitToUser, emitToComplaint,
        applyEffects, getNotifications, sortByCreatedAtDesc,
        insertByCreatedAtDesc]
  · cases complaint with
    | none => exact ⟨rfl, rfl⟩
    | some c => cases ioUp <;> exact ⟨rfl, rfl⟩
  · cases complaint with
    | none => exact ⟨rfl, rfl⟩
    | some c =>
      by_cases hg : isInternal = false ∧ ¬ c.userId = actorId <;>
        cases ioUp <;>
        constructor <;>
        simp [addComment, hg, emitToUser, emitToComplaint, persisted]
  · cases complaint with
    | none =>
      by_cases h1 : rating = 0 ∨ 5 < rating <;>
        constructor <;> simp [rateComplaint, h1]
    | some c =>
      by_cases h1 : rating = 0 ∨ 5 < rating
      · constructor <;> simp [rateComplaint, h1]
      · by_cases h2 : c.userId = actorId
        · by_cases h3 : c.status = CStatus.resolved
          · cases h4 : c.assignedTo with
            | none =>
              cases ioUp <;> constructor <;>
                simp [rateComplaint, h1, h2, h3, h4, emitToUser, persisted]
            | some staffId2 =>
              cases ioUp <;> constructor <;>
                simp [rateComplaint, h1, h2, h3, h4, emitToUser, persisted]
          · constructor <;> simp [rateComplaint, h1, h2, h3]
        · constructor <;> simp [rateComplaint, h1, h2]
  · cases hf : findUser users staffId with
    | none => constructor <;> simp [assignComplaint, hf]
    | some staff =>
      by_cases hr : staff.role = Role.staff
      · cases complaint with
        | none => constructor <;> simp [assignComplaint, hf, hr]
        | some c =>
          cases ioUp <;> constructor <;>
            simp [assignComplaint, hf, hr, emitToUser, persisted]
      · constructor <;> simp [assignComplaint, hf, hr]
  · cases complaint with
    | none => exact ⟨rfl, rfl⟩
    | some c =>
      refine ⟨rfl, ?_⟩
      exact persisted_escalateAdminFx _ _ _ _ _ _ _
  · cases ids with
    | nil => exact ⟨rfl, rfl⟩
    | cons i is =>
      refine ⟨rfl, ?_⟩
      exact persisted_bulkStatusFx _ _ _ _ _

/-- A verified resident account. -/
def residentUser : User :=
  { id := 5, firstName := "Maria", lastName := "Santos",
    role := .resident, isVerified := true }

/-- C8: evaluation at the failing input.  A staff member (user 2) adds an
internal comment to complaint 10, owned by resident 1 whose connection is
subscribed to the `complaint:10` room (which `socket.ts` allows without
any ownership or role check).  The owner-side suppression works — no
notification is persisted and no `user:1` emission occurs — but the
unconditional `comment:added` broadcast to the complaint room carries the
internal comment's full text to the owner, so the outputs observable by
the owner are not identical to a run without the internal comment (which
would show the owner nothing). -/
theorem internal_comment_leaks_to_subscribed_owner :
    exPending.userId = 1 ∧
    persisted (addComment 2 "confidential staff note" true (some exPending)
      9 true 0).effects = [] ∧
    observedBy 1 [10] (addComment 2 "confidential staff note" true
      (some exPending) 9 true 0).effects =
      [SideEffect.emitComplaint 10 "comment:added"
        { message := some "confidential staff note",
          isInternal := some true }] :=
  ⟨rfl, rfl, rfl⟩

/-- C9 counterexample: an unverified staff account is accepted as
assignee — `assignComplaint` checks only the role, never `isVerified` —
so the claim that an unverified staff account is rejected with
`InvalidAssignee` fails. -/
theorem assign_accepts_unverified_staff :
    unverifiedStaff.isVerified = false ∧
    (assignComplaint 2 3 [unverifiedStaff] (some exPending) 9 true
        0).result =
      Except.ok { exPending with
        assignedTo := some 3,
        history :=
          [{ action := "Complaint assigned", performedBy := 2,
             previousStatus := none, newStatus := none,
             notes := some "Assigned to Juan Cruz",
             timestamp := 0 }] } :=
  ⟨rfl, rfl⟩

/-- C9 (amended): `assignComplaint` and `bulkAssign` fail with
`InvalidAssignee` — performing no side effect and leaving the store
untouched — exactly when the staff id does not resolve to a
`staff`-role account: a missing user, a resident or an admin are
rejected, while the `isVerified` flag is never consulted, so any
staff-role account (verified or not) is accepted. -/
theorem assign_requires_staff_role
    (actorId staffId freshId now : Nat) (ioUp : Bool)
    (users : List User) (complaint : Option Complaint)
    (ids : List Nat) (store : List Complaint) :
    (findUser users staffId = none →
      assignComplaint actorId staffId users complaint freshId ioUp now =
        { result := Except.error ApiError.invalidAssignee,
          effects := [] }) ∧
    (∀ u, findUser users staffId = some u → u.role ≠ Role.staff →
      assignComplaint actorId staffId users complaint freshId ioUp now =
        { result := Except.error ApiError.invalidAssignee,
          effects := [] }) ∧
    (∀ u c, findUser users staffId = some u → u.role = Role.staff →
      complaint = some c →
      ∃ v, (assignComplaint actorId staffId users complaint freshId ioUp
          now).result = Except.ok v ∧ v.assignedTo = some staffId) ∧
    (ids ≠ [] → findUser users staffId = none →
      bulkAssign actorId ids staffId users store freshId ioUp now =
        ({ result := Except.error ApiError.invalidAssignee,
           effects := [] }, store)) ∧
    (ids ≠ [] → ∀ u, findUser users staffId = some u →
      u.role ≠ Role.staff →
      bulkAssign actorId ids staffId users store freshId ioUp now =
        ({ result := Except.error ApiError.invalidAssignee,
           effects := [] }, store)) := by
  refine ⟨?_, ?_, ?_, ?_, ?_⟩
  · intro hf
    simp [assignComplaint, hf]
  · intro u hf hr
    simp [assignComplaint, hf, hr]
  · intro u c hf hr hc
    subst hc
    refine ⟨{ c with
      assignedTo := some staffId,
      history := c.history ++
        [{ action := "Complaint assigned", performedBy := actorId,
           previousStatus := none, newStatus := none,
           notes := some ("Assigned to " ++ u.firstName ++ " "
             ++ u.lastName),
           timestamp := now }] }, ?_, rfl⟩
    simp [assignComplaint, hf, hr]
  · intro hne hf
    cases ids with
    | nil => exact absurd rfl hne
    | cons i is => simp [bulkAssign, hf]
  · intro hne u hf hr
    cases ids with
    | nil => exact absurd rfl hne
    | cons i is => simp [bulkAssign, hf, hr]

/-- C9 witness: a resident account as assignee is rejected with no side
effect. -/
theorem assign_requires_staff_role_witness :
    assignComplaint 2 5 [residentUser] (some exPending) 9 true 0 =
      { result := Except.error ApiError.invalidAssignee, effects := [] } := by
  have h := assign_requires_staff_role 2 5 9 0 true [residentUser]
    (some exPending) [10] [exPending]
  exact h.2.1 residentUser rfl (by decide)

/-- Membership is preserved by ordered insertion. -/
theorem mem_insertByCreatedAtDesc {m n : Notification}
    {l : List Notification} :
    m ∈ insertByCreatedAtDesc n l ↔ m = n ∨ m ∈ l := by
  induction l with
  | nil => simp [insertByCreatedAtDesc]
  | cons x xs ih =>
    simp only [insertByCreatedAtDesc]
    by_cases h : x.createdAt ≤ n.createdAt
    · simp [h]
    · simp only [ge_iff_le, h, if_false, List.mem_cons, ih]
      tauto

/-- Membership is preserved by the `createdAt`-descending sort. -/
theorem mem_sortByCreatedAtDesc {m : Notification}
    {l : List Notification} :
    m ∈ sortByCreatedAtDesc l ↔ m ∈ l := by
  induction l with
  | nil => simp [sortByCreatedAtDesc]
  | cons x xs ih =>
    simp [sortByCreatedAtDesc, mem_insertByCreatedAtDesc, ih]

/-- A notification of resident 1. -/
def exNotifA : Notification :=
  { id := 1, userId := 1, title := "Complaint Update",
    message := "Your complaint has been closed.", type := .info,
    isRead := false, relatedId := some 10, createdAt := 5 }

/-- A notification of staff user 2. -/
def exNotifB : Notification :=
  { id := 2, userId := 2, title := "Complaint Assigned",
    message := "You have been assigned a new complaint", type := .info,
    isRead := false, relatedId := some 10, createdAt := 6 }

/-- C10: the notification inbox is isolated per user.  `getNotifications`
returns only notifications whose recipient is the caller; when the given
id names no notification of the caller — in particular when it belongs to
another user — `markAsRead` and `deleteNotification` answer `NotFound`
and leave the store unchanged; and `markAllAsRead` leaves every
notification of any other user exactly as it was. -/
theorem notification_inbox_isolated
    (callerId nid : Nat) (q : Option Bool) (store : List Notification) :
    (∀ n ∈ (getNotifications callerId q store).notifications,
      n.userId = callerId) ∧
    ((∀ n ∈ store, ¬ (n.id = nid ∧ n.userId = callerId)) →
      markAsRead callerId nid store =
        (Except.error ApiError.notFound, store)) ∧
    ((∀ n ∈ store, ¬ (n.id = nid ∧ n.userId = callerId)) →
      deleteNotification callerId nid store =
        (Except.error ApiError.notFound, store)) ∧
    List.Forall₂ (fun a b => a.userId ≠ callerId → b = a) store
      (markAllAsRead callerId store) := by
  have hfind : (∀ n ∈ store, ¬ (n.id = nid ∧ n.userId = callerId)) →
      store.find? (fun n => n.id == nid && n.userId == callerId) = none := by
    intro hnone
    rw [List.find?_eq_none]
    intro x hx hcontra
    rw [Bool.and_eq_true] at hcontra
    exact hnone x hx ⟨eq_of_beq hcontra.1, eq_of_beq hcontra.2⟩
  refine ⟨?_, ?_, ?_, ?_⟩
  · intro n hn
    simp only [getNotifications] at hn
    have h1 := List.mem_of_mem_take hn
    rw [mem_sortByCreatedAtDesc] at h1
    have h2 := (List.mem_filter.mp h1).2
    rw [Bool.and_eq_true] at h2
    exact eq_of_beq h2.1
  · intro hnone
    simp [markAsRead, hfind hnone]
  · intro hnone
    simp [deleteNotification, hfind hnone]
  · clear hfind
    induction store with
    | nil => constructor
    | cons a rest ih =>
      refine List.Forall₂.cons ?_ ih
      intro hne
      have hb : (a.userId == callerId) = false :=
        beq_eq_false_iff_ne.mpr hne
      simp [hb]

/-- C10 witness: a notification id owned by another user yields 404 and
no state change. -/
theorem notification_inbox_isolated_witness :
    markAsRead 1 2 [exNotifA, exNotifB] =
      (Except.error ApiError.notFound, [exNotifA, exNotifB]) := by
  have h := notification_inbox_isolated 1 2 none [exNotifA, exNotifB]
  exact h.2.1 (by decide)

end IBarangay
